import Mathlib

/-!
Shallow embedding of `src/parse.py`, an IPPcode24 lexical/syntactic analyzer.

Modelling conventions:
- Program text, lines and tokens are lists of characters (`Str`).
- Python whitespace handling (`str.split()`, `str.strip()`) is modelled over
  the six ASCII whitespace characters; `str.upper()` and the character
  classes `\d`, `[0-9]`, `[a-zA-Z]` are modelled over ASCII, matching the
  inputs the script is specified for.
- The anchored regular expressions of `attributesRegexDict` are translated
  into executable Boolean matchers, one per dictionary entry, keeping the
  source names.
- `sys.exit` inside `print_error_and_exit` is modelled by the `Res` type:
  a code path either produces a value or aborts with an `ErrorCode`.
- Writes performed with `print(...)` are modelled as an ordered list of
  `OutEvent`s, each tagged with the stream it goes to (`print()` writes to
  stdout, `print(..., file=sys.stderr)` to stderr).
-/

/-- Character-list model of Python strings. -/
abbrev Str := List Char

/-- Coercion of a Lean string literal into the character-list model. -/
def str (s : String) : Str := s.data

/-- ASCII whitespace recognised by Python's `str.split()` / `str.strip()`. -/
def isSpace (c : Char) : Bool :=
  c = ' ' || c = '\t' || c = '\n' || c = '\r' || c = '\x0b' || c = '\x0c'

/-- Model of `str.upper()` (ASCII case mapping). -/
def upper (s : Str) : Str := s.map Char.toUpper

/-- Model of `str.strip()`: drop whitespace from both ends. -/
def strip (s : Str) : Str :=
  ((s.dropWhile isSpace).reverse.dropWhile isSpace).reverse

/-- Auxiliary for `splitWs`; `acc` is the current token, reversed. -/
def splitWsAux : Str → Str → List Str
  | [], acc => if acc.isEmpty then [] else [acc.reverse]
  | c :: rest, acc =>
    if isSpace c then
      if acc.isEmpty then splitWsAux rest []
      else acc.reverse :: splitWsAux rest []
    else splitWsAux rest (c :: acc)

/-- Model of `str.split()` with no argument: split on runs of whitespace,
producing no empty tokens. -/
def splitWs (s : Str) : List Str := splitWsAux s []

/-- Model of `str.splitlines()` (restricted to the newline character):
no trailing empty line is produced for a trailing newline. -/
def splitlines : Str → List Str
  | [] => []
  | c :: rest =>
    if c = '\n' then [] :: splitlines rest
    else
      match splitlines rest with
      | [] => [[c]]
      | l :: ls => (c :: l) :: ls

/-- State-machine form of `re.sub(r"#.*", "", source_code)`: between a `#`
and the next newline every character is dropped; newlines are kept. -/
def stripCommentsAux : Bool → Str → Str
  | _, [] => []
  | inComment, c :: rest =>
    if c = '\n' then '\n' :: stripCommentsAux false rest
    else if inComment then stripCommentsAux true rest
    else if c = '#' then stripCommentsAux true rest
    else c :: stripCommentsAux false rest

/-- Comment stripping over the whole source text, as in `prepare_source`. -/
def stripComments (s : Str) : Str := stripCommentsAux false s

/-- Model of `'\n'.join(...)`. -/
def joinNl : List Str → Str
  | [] => []
  | [l] => l
  | l :: ls => l ++ '\n' :: joinNl ls

/-- The statement lines kept by `prepare_source`: the comment-stripped
physical lines whose `strip` is non-empty, in original order. -/
def preparedLines (s : Str) : List Str :=
  (splitlines (stripComments s)).filter (fun l => !(strip l).isEmpty)

/-- Model of `prepare_source`: strip comments, drop blank lines, re-join. -/
def prepare_source (s : Str) : Str := joinNl (preparedLines s)

/-- Model of `class ErrorCode(Enum)`. -/
inductive ErrorCode
  | PARAMETER_ERR
  | INPUT_FILE_ERR
  | OUTPUT_FILE_ERR
  | MISSING_OR_WRONG_IPPCODE_HEADER
  | UNKNOWN_OPCODE
  | OTHER_LEXICAL_OR_SYNTACTICAL_ERR
  | INTERNAL_ERR
  deriving DecidableEq

/-- Numeric value of each error code, as in the Python enum. -/
def ErrorCode.value : ErrorCode → Nat
  | .PARAMETER_ERR => 10
  | .INPUT_FILE_ERR => 11
  | .OUTPUT_FILE_ERR => 12
  | .MISSING_OR_WRONG_IPPCODE_HEADER => 21
  | .UNKNOWN_OPCODE => 22
  | .OTHER_LEXICAL_OR_SYNTACTICAL_ERR => 23
  | .INTERNAL_ERR => 99

/-- Model of `class ArgType(Enum)`. -/
inductive ArgType
  | VARIABLE
  | SYMBOL
  | LABEL
  | TYPE
  deriving DecidableEq

/-- Outcome of a code path that either produces a value or reaches
`print_error_and_exit` with some error code. -/
inductive Res (α : Type)
  | ok : α → Res α
  | err : ErrorCode → Res α
  deriving DecidableEq

/-- Whether a `Res` is a success. -/
def Res.isOk {α : Type} : Res α → Bool
  | .ok _ => true
  | .err _ => false

/-- Model of `instructionDict`: instruction name to expected argument kinds. -/
def instructionDict : List (Str × List ArgType) := [
  (str ".IPPCODE24", []),
  (str "MOVE", [ArgType.VARIABLE, ArgType.SYMBOL]),
  (str "CREATEFRAME", []),
  (str "PUSHFRAME", []),
  (str "POPFRAME", []),
  (str "DEFVAR", [ArgType.VARIABLE]),
  (str "CALL", [ArgType.LABEL]),
  (str "RETURN", []),
  (str "PUSHS", [ArgType.SYMBOL]),
  (str "POPS", [ArgType.VARIABLE]),
  (str "ADD", [ArgType.VARIABLE, ArgType.SYMBOL, ArgType.SYMBOL]),
  (str "SUB", [ArgType.VARIABLE, ArgType.SYMBOL, ArgType.SYMBOL]),
  (str "MUL", [ArgType.VARIABLE, ArgType.SYMBOL, ArgType.SYMBOL]),
  (str "IDIV", [ArgType.VARIABLE, ArgType.SYMBOL, ArgType.SYMBOL]),
  (str "LT", [ArgType.VARIABLE, ArgType.SYMBOL, ArgType.SYMBOL]),
  (str "GT", [ArgType.VARIABLE, ArgType.SYMBOL, ArgType.SYMBOL]),
  (str "EQ", [ArgType.VARIABLE, ArgType.SYMBOL, ArgType.SYMBOL]),
  (str "AND", [ArgType.VARIABLE, ArgType.SYMBOL, ArgType.SYMBOL]),
  (str "OR", [ArgType.VARIABLE, ArgType.SYMBOL, ArgType.SYMBOL]),
  (str "NOT", [ArgType.VARIABLE, ArgType.SYMBOL]),
  (str "INT2CHAR", [ArgType.VARIABLE, ArgType.SYMBOL]),
  (str "STRI2INT", [ArgType.VARIABLE, ArgType.SYMBOL, ArgType.SYMBOL]),
  (str "READ", [ArgType.VARIABLE, ArgType.TYPE]),
  (str "WRITE", [ArgType.SYMBOL]),
  (str "CONCAT", [ArgType.VARIABLE, ArgType.SYMBOL, ArgType.SYMBOL]),
  (str "STRLEN", [ArgType.VARIABLE, ArgType.SYMBOL]),
  (str "GETCHAR", [ArgType.VARIABLE, ArgType.SYMBOL, ArgType.SYMBOL]),
  (str "SETCHAR", [ArgType.VARIABLE, ArgType.SYMBOL, ArgType.SYMBOL]),
  (str "TYPE", [ArgType.VARIABLE, ArgType.SYMBOL]),
  (str "LABEL", [ArgType.LABEL]),
  (str "JUMP", [ArgType.LABEL]),
  (str "JUMPIFEQ", [ArgType.LABEL, ArgType.SYMBOL, ArgType.SYMBOL]),
  (str "JUMPIFNEQ", [ArgType.LABEL, ArgType.SYMBOL, ArgType.SYMBOL]),
  (str "EXIT", [ArgType.SYMBOL]),
  (str "DPRINT", [ArgType.SYMBOL]),
  (str "BREAK", [])]

/-- Dictionary lookup, `instructionDict[name]` / `name in instructionDict`. -/
def lookupInstr (name : Str) : Option (List ArgType) :=
  instructionDict.lookup name

/-- First character class of identifiers: `[a-zA-Z_\-$&%*!?]`. -/
def isIdentStart (c : Char) : Bool :=
  c.isAlpha || c = '_' || c = '-' || c = '$' || c = '&' ||
    c = '%' || c = '*' || c = '!' || c = '?'

/-- Continuation character class: `[a-zA-Z0-9_\-$&%*!?]`. -/
def isIdentChar (c : Char) : Bool := isIdentStart c || c.isDigit

/-- Matcher for the anchored identifier pattern shared by variables/labels. -/
def matchIdent : Str → Bool
  | [] => false
  | c :: rest => isIdentStart c && rest.all isIdentChar

/-- Matcher for `var_regex`: `^(GF|LF|TF)@[ident-start][ident-char]*$`. -/
def var_regex : Str → Bool
  | f1 :: 'F' :: '@' :: rest => (f1 = 'G' || f1 = 'L' || f1 = 'T') && matchIdent rest
  | _ => false

/-- Matcher for `label_regex`: the bare identifier pattern. -/
def label_regex (t : Str) : Bool := matchIdent t

/-- Matcher for `type_regex`: `^(int|string|bool)$`. -/
def type_regex (t : Str) : Bool :=
  t == str "int" || t == str "string" || t == str "bool"

/-- Payload of `int_regex`: `[+-]?\d+` over ASCII digits. -/
def matchIntPayload : Str → Bool
  | [] => false
  | c :: rest =>
    if c = '+' || c = '-' then !rest.isEmpty && rest.all Char.isDigit
    else (c :: rest).all Char.isDigit

/-- Matcher for `int_regex`: `^int@([+-]?\d+)$`. -/
def int_regex : Str → Bool
  | 'i' :: 'n' :: 't' :: '@' :: p => matchIntPayload p
  | _ => false

/-- Matcher for `bool_regex`: `^bool@(true|false)$`. -/
def bool_regex (t : Str) : Bool :=
  t == str "bool@true" || t == str "bool@false"

/-- Matcher for `nil_regex`: `^nil@(nil)$`. -/
def nil_regex (t : Str) : Bool := t == str "nil@nil"

/-- Matcher for the repeated group `(?:[^\\\s#]|\\[0-9]{3})` of
`string_regex`, zero or more occurrences; items are decided left to right
(a backslash can only start a three-digit escape, so parsing is unique). -/
def stringItems : Str → Bool
  | [] => true
  | '\\' :: d1 :: d2 :: d3 :: rest =>
    d1.isDigit && d2.isDigit && d3.isDigit && stringItems rest
  | '\\' :: _ => false
  | c :: rest => !isSpace c && !(c = '#') && stringItems rest

/-- Matcher for `string_regex`: `^string@(?:[^\\\s#]|\\[0-9]{3})+$`;
note the `+`, requiring at least one item after the `@`. -/
def string_regex : Str → Bool
  | 's' :: 't' :: 'r' :: 'i' :: 'n' :: 'g' :: '@' :: body =>
    !body.isEmpty && stringItems body
  | _ => false

/-- Part of the token after its first `@`, when present
(`tokens[i].find("@")` and the slice `tokens[i][split_index+1:]`). -/
def afterFirstAt : Str → Option Str
  | [] => none
  | '@' :: rest => some rest
  | _ :: rest => afterFirstAt rest

/-- Literal value of a token: the part after the first `@` when the token
contains one, otherwise the whole token. -/
def literalOf (t : Str) : Str := (afterFirstAt t).getD t

/-- One `argN` element of the output tree: position, the value of its
`type` attribute, and its text content. -/
structure ParsedArgument where
  pos : Nat
  kind : Str
  text : Str
  deriving DecidableEq

/-- One `instruction` element of the output tree. -/
structure ParsedInstruction where
  order : Nat
  opcode : Str
  args : List ParsedArgument
  deriving DecidableEq

/-- One iteration of the argument loop of `run_analysis` for argument
position `i`: the regex checks and the element construction, in source
order (for `SYMBOL`: var, int, bool, nil, string). -/
def classifyArg (argType : ArgType) (i : Nat) (tok : Str) : Res ParsedArgument :=
  match argType with
  | .VARIABLE =>
    if var_regex tok then .ok ⟨i, str "var", tok⟩
    else .err .OTHER_LEXICAL_OR_SYNTACTICAL_ERR
  | .SYMBOL =>
    if var_regex tok then .ok ⟨i, str "var", tok⟩
    else if int_regex tok then .ok ⟨i, str "int", literalOf tok⟩
    else if bool_regex tok then .ok ⟨i, str "bool", literalOf tok⟩
    else if nil_regex tok then .ok ⟨i, str "nil", literalOf tok⟩
    else if string_regex tok then .ok ⟨i, str "string", literalOf tok⟩
    else .err .OTHER_LEXICAL_OR_SYNTACTICAL_ERR
  | .LABEL =>
    if label_regex tok then .ok ⟨i, str "label", tok⟩
    else .err .OTHER_LEXICAL_OR_SYNTACTICAL_ERR
  | .TYPE =>
    if type_regex tok then .ok ⟨i, str "type", literalOf tok⟩
    else .err .OTHER_LEXICAL_OR_SYNTACTICAL_ERR

/-- The argument loop `for i in range(1, len(tokens))`, paired with the
list of tokens on which `classifyArg` was actually invoked (the loop stops
at the first failing argument). -/
def classifyArgsT :
    List ArgType → List Str → Nat → Res (List ParsedArgument) × List Str
  | ty :: tys, tok :: toks, i =>
    (match classifyArg ty i tok with
     | .err e => (.err e, [tok])
     | .ok a =>
       match classifyArgsT tys toks (i + 1) with
       | (.ok rest, calls) => (.ok (a :: rest), tok :: calls)
       | (.err e, calls) => (.err e, tok :: calls))
  | _, _, _ => (.ok [], [])

/-- One write performed by the script. -/
inductive OutEvent
  | tokenDump (lineNumber : Nat) (tokens : List Str)
  | signatureDump (sig : List ArgType)
  | errorMsg (e : ErrorCode)
  deriving DecidableEq

/-- The two process streams. -/
inductive StdStream
  | stdout
  | stderr
  deriving DecidableEq

/-- Stream of each write: the debug `print(...)` calls go to standard
output, the message of `print_error_and_exit` goes to standard error. -/
def streamOf : OutEvent → StdStream
  | .tokenDump _ _ => .stdout
  | .signatureDump _ => .stdout
  | .errorMsg _ => .stderr

/-- Outcome of one loop body iteration of `run_analysis`: its result
(`ok none` means `continue` without producing an instruction), the writes
it performs, and the tokens it passed to argument classification. -/
structure LineResult where
  res : Res (Option ParsedInstruction)
  out : List OutEvent
  classified : List Str
  deriving DecidableEq

/-- Loop body for line number `n` after the initial token dump: header
check on line 0, then opcode lookup, arity check and argument
classification, exactly in source order. -/
def processLineCore (n : Nat) (line : Str) (tokens : List Str) : LineResult :=
  if n = 0 then
    if strip (upper line) = str ".IPPCODE24" then ⟨.ok none, [], []⟩
    else ⟨.err .MISSING_OR_WRONG_IPPCODE_HEADER, [], []⟩
  else
    match tokens with
    | [] => ⟨.ok none, [], []⟩
    | t0 :: rest =>
      match lookupInstr (upper t0) with
      | none => ⟨.err .UNKNOWN_OPCODE, [], []⟩
      | some sig =>
        if rest.length ≠ sig.length then
          ⟨.err .OTHER_LEXICAL_OR_SYNTACTICAL_ERR, [OutEvent.signatureDump sig], []⟩
        else
          match classifyArgsT sig rest 1 with
          | (.ok args, calls) => ⟨.ok (some ⟨n, upper t0, args⟩), [], calls⟩
          | (.err e, calls) => ⟨.err e, [], calls⟩

/-- Full loop body for one line: the unconditional token dump of
`print(f"Tokens on line ...")` followed by the checks. -/
def processLineFull (n : Nat) (line : Str) : LineResult :=
  let tokens := splitWs line
  let c := processLineCore n line tokens
  ⟨c.res, OutEvent.tokenDump n tokens :: c.out, c.classified⟩

/-- The `for line_number, line in enumerate(...)` loop of `run_analysis`
starting at line number `n`: result of the analysis plus the ordered list
of writes; the first error aborts the whole loop. -/
def runAux : List Str → Nat → Res (List ParsedInstruction) × List OutEvent
  | [], _ => (.ok [], [])
  | l :: rest, n =>
    let r := processLineFull n l
    match r.res with
    | .err e => (.err e, r.out ++ [OutEvent.errorMsg e])
    | .ok none =>
      let p := runAux rest (n + 1)
      (p.1, r.out ++ p.2)
    | .ok (some ins) =>
      let p := runAux rest (n + 1)
      ((match p.1 with
        | .ok instrs => Res.ok (ins :: instrs)
        | .err e => Res.err e), r.out ++ p.2)

/-- Model of `run_analysis`: split the prepared source into lines and run
the loop from line number 0. -/
def run_analysis (s : Str) : Res (List ParsedInstruction) × List OutEvent :=
  runAux (splitlines s) 0

/-- Analysis result on raw input `s` after `prepare_source`. -/
def analyzerResult (s : Str) : Res (List ParsedInstruction) :=
  (run_analysis (prepare_source s)).1

/-- Model of `main` invoked with no command-line arguments: empty standard
input aborts with `INPUT_FILE_ERR` before any analysis, otherwise the
analysis runs on the prepared source. -/
def mainRun (s : Str) : Res (List ParsedInstruction) :=
  if s.isEmpty then .err .INPUT_FILE_ERR else analyzerResult s

/-- Tree handed to the success output path of `main` (`tree.write`);
`none` whenever any error aborted the run. -/
def mainOutput (s : Str) : Option (List ParsedInstruction) :=
  match mainRun s with
  | .ok t => some t
  | .err _ => none

/-- Process exit value of `main`. -/
def mainExitCode (s : Str) : Nat :=
  match mainRun s with
  | .ok _ => 0
  | .err e => e.value

/-- Order attributes of the produced instructions, in tree order, when the
analysis succeeded. -/
def resultOrders : Res (List ParsedInstruction) → Option (List Nat)
  | .ok instrs => some (instrs.map ParsedInstruction.order)
  | .err _ => none

/-- A statement line holding a recognized instruction with correct arity
and well-formed arguments: its first token is found in the registry, the
argument count matches the signature, and every argument classifies. -/
def lineWellFormed (l : Str) : Bool :=
  match splitWs l with
  | [] => false
  | t0 :: rest =>
    match lookupInstr (upper t0) with
    | none => false
    | some sig =>
      rest.length == sig.length && ((classifyArgsT sig rest 1).1).isOk

/-! ### Helper lemmas: the line split of `run_analysis` undoes `prepare_source`'s join -/

/-- Pieces produced by `splitlines` contain no newline character. -/
theorem mem_splitlines_no_nl : ∀ (s : Str), ∀ l ∈ splitlines s, '\n' ∉ l := by
  intro s
  induction s with
  | nil => intro l hl; simp [splitlines] at hl
  | cons c rest ih =>
    intro l hl
    by_cases hc : c = '\n'
    · simp only [splitlines, if_pos hc] at hl
      rcases List.mem_cons.mp hl with h | h
      · subst h; simp
      · exact ih l h
    · simp only [splitlines, if_neg hc] at hl
      rcases hsp : splitlines rest with _ | ⟨l0, ls⟩
      · rw [hsp] at hl
        simp at hl
        subst hl
        intro hmem
        exact hc (List.mem_singleton.mp hmem).symm
      · rw [hsp] at hl
        rcases List.mem_cons.mp hl with h | h
        · subst h
          intro hmem
          rcases List.mem_cons.mp hmem with h1 | h1
          · exact hc h1.symm
          · exact ih l0 (by rw [hsp]; exact List.mem_cons_self l0 ls) h1
        · exact ih l (by rw [hsp]; exact List.mem_cons_of_mem l0 h)

/-- Splitting a single newline-free non-empty line gives back that line. -/
theorem splitlines_single : ∀ (l : Str), '\n' ∉ l → l ≠ [] → splitlines l = [l] := by
  intro l
  induction l with
  | nil => intro _ h; exact absurd rfl h
  | cons c rest ih =>
    intro hnl _
    have hc : ¬ c = '\n' := fun h => hnl (h ▸ List.mem_cons_self c rest)
    simp only [splitlines, if_neg hc]
    by_cases hr : rest = []
    · subst hr; simp [splitlines]
    · have hrec := ih (fun h => hnl (List.mem_cons_of_mem _ h)) hr
      rw [hrec]

/-- Splitting after a newline-free prefix peels that prefix off as one line. -/
theorem splitlines_append : ∀ (l t : Str), '\n' ∉ l →
    splitlines (l ++ '\n' :: t) = l :: splitlines t := by
  intro l
  induction l with
  | nil => intro t _; simp [splitlines]
  | cons c rest ih =>
    intro t hnl
    have hc : ¬ c = '\n' := fun h => hnl (h ▸ List.mem_cons_self c rest)
    have hr := ih t (fun h => hnl (List.mem_cons_of_mem _ h))
    simp only [List.cons_append, splitlines, if_neg hc, List.append_eq, hr]

/-- Splitting the newline join of non-empty newline-free lines is the identity. -/
theorem splitlines_joinNl : ∀ (L : List Str),
    (∀ l ∈ L, '\n' ∉ l ∧ l ≠ []) → splitlines (joinNl L) = L := by
  intro L
  induction L with
  | nil => intro _; rfl
  | cons l L ih =>
    intro h
    rcases L with _ | ⟨l2, L'⟩
    · exact splitlines_single l (h l (List.mem_cons_self l _)).1 (h l (List.mem_cons_self l _)).2
    · have hjoin : joinNl (l :: l2 :: L') = l ++ '\n' :: joinNl (l2 :: L') := rfl
      rw [hjoin, splitlines_append _ _ (h l (List.mem_cons_self l _)).1,
          ih (fun x hx => h x (List.mem_cons_of_mem l hx))]

/-- Every prepared line is newline-free and non-empty. -/
theorem preparedLines_mem : ∀ (s : Str), ∀ l ∈ preparedLines s, '\n' ∉ l ∧ l ≠ [] := by
  intro s l hl
  have h1 := List.mem_filter.mp hl
  refine ⟨mem_splitlines_no_nl _ l h1.1, ?_⟩
  intro hnil
  subst hnil
  exact absurd h1.2 (by decide)

/-- Splitting the prepared source recovers exactly the prepared lines. -/
theorem splitlines_prepare_source (s : Str) :
    splitlines (prepare_source s) = preparedLines s :=
  splitlines_joinNl (preparedLines s) (preparedLines_mem s)

/-! ### Helper lemmas about the loop body and the loop -/

/-- Result component of the full loop body. -/
theorem processLineFull_res (n : Nat) (l : Str) :
    (processLineFull n l).res = (processLineCore n l (splitWs l)).res := rfl

/-- Output component of the full loop body: the token dump comes first. -/
theorem processLineFull_out (n : Nat) (l : Str) :
    (processLineFull n l).out
      = OutEvent.tokenDump n (splitWs l) :: (processLineCore n l (splitWs l)).out := rfl

/-- Classified-token component of the full loop body. -/
theorem processLineFull_classified (n : Nat) (l : Str) :
    (processLineFull n l).classified
      = (processLineCore n l (splitWs l)).classified := rfl

/-- A well-formed non-header line is accepted and produces an instruction
whose order attribute equals the line number. -/
theorem processLine_wf (n : Nat) (l : Str) (hn : n ≠ 0)
    (hwf : lineWellFormed l = true) :
    ∃ args t0 rest,
      splitWs l = t0 :: rest ∧
      (processLineFull n l).res = .ok (some ⟨n, upper t0, args⟩) := by
  unfold lineWellFormed at hwf
  split at hwf
  next hsp => exact Bool.noConfusion hwf
  next t0 rest hsp =>
    split at hwf
    next hlk => exact Bool.noConfusion hwf
    next sig hlk =>
      simp only [Bool.and_eq_true, beq_iff_eq] at hwf
      rcases hpair : classifyArgsT sig rest 1 with ⟨res0, calls⟩
      rw [hpair] at hwf
      rcases res0 with args | e
      · refine ⟨args, t0, rest, hsp, ?_⟩
        rw [processLineFull_res, hsp]
        simp [processLineCore, hn, hlk, hpair, hwf.1]
      · simp [Res.isOk] at hwf

/-- The loop, started past the header on well-formed lines only, succeeds
and numbers the produced instructions `n, n+1, ...` in order. -/
theorem runAux_wf : ∀ (ls : List Str) (n : Nat), n ≠ 0 →
    (∀ l ∈ ls, lineWellFormed l = true) →
    ∃ instrs, (runAux ls n).1 = .ok instrs ∧
      instrs.map ParsedInstruction.order = List.range' n ls.length := by
  intro ls
  induction ls with
  | nil => intro n _ _; exact ⟨[], rfl, rfl⟩
  | cons l ls ih =>
    intro n hn hwf
    obtain ⟨args, t0, rest, hsp, hres⟩ :=
      processLine_wf n l hn (hwf l (List.mem_cons_self _ _))
    obtain ⟨instrs, htail, horders⟩ :=
      ih (n + 1) (Nat.succ_ne_zero n) (fun x hx => hwf x (List.mem_cons_of_mem _ hx))
    refine ⟨⟨n, upper t0, args⟩ :: instrs, ?_, ?_⟩
    · simp only [runAux, hres]
      simp [htail]
    · simp only [List.map_cons, horders, List.length_cons]
      rfl

/-! ### Claim theorems -/

/-- Claim C1, counterexample: on the zero-length input the analyzer
terminates with the input-access error (exit value 11), not with the
header error (21), so the claim's stated error kind is wrong. -/
theorem claim_C1_counterexample :
    mainRun (str "") = .err .INPUT_FILE_ERR ∧
    mainExitCode (str "") = 11 ∧
    mainRun (str "") ≠ .err .MISSING_OR_WRONG_IPPCODE_HEADER := by decide

/-- Claim C1, amended: for the zero-length input string the analyzer
terminates with the input-access error (INPUT_FILE_ERR, exit value 11),
and produces no instruction tree. -/
theorem claim_C1_amended_thm :
    mainRun (str "") = .err .INPUT_FILE_ERR ∧
    mainExitCode (str "") = 11 ∧
    mainOutput (str "") = none := by decide

/-- Claim C2, code-bug evidence: a non-empty input consisting only of a
comment line and a whitespace line normalizes to an empty statement
sequence, yet the analyzer succeeds with exit value 0 and an empty tree
instead of terminating with the header error. -/
theorem claim_C2_code_bug_eval :
    str "# jen komentar\n   \n" ≠ [] ∧
    preparedLines (str "# jen komentar\n   \n") = [] ∧
    mainRun (str "# jen komentar\n   \n") = .ok [] ∧
    mainExitCode (str "# jen komentar\n   \n") = 0 := by decide

/-- Claim C3, counterexample: the input whose second statement line equals
the header marker is accepted, and its tree contains a ParsedInstruction
whose opcode is the header marker `.IPPCODE24`. -/
theorem claim_C3_counterexample :
    mainRun (str ".IPPCODE24\n.IPPCODE24\n")
      = .ok [⟨1, str ".IPPCODE24", []⟩] ∧
    (ParsedInstruction.mk 1 (str ".IPPCODE24") []).opcode = str ".IPPCODE24" := by decide

/-- Claim C3, amended: a statement line after the first whose single token
uppercases to the header marker IS looked up in the registry and accepted
as a normal zero-arity instruction, producing a node with opcode
`.IPPCODE24`; accepted trees can therefore contain the header marker as an
opcode. -/
theorem claim_C3_amended (n : Nat) (l t : Str) (hn : n ≠ 0)
    (hsp : splitWs l = [t]) (hup : upper t = str ".IPPCODE24") :
    (processLineFull n l).res = .ok (some ⟨n, str ".IPPCODE24", []⟩) := by
  rw [processLineFull_res, hsp]
  have hlk : lookupInstr (str ".IPPCODE24") = some [] := by decide
  simp [processLineCore, hn, hup, hlk, classifyArgsT]

/-- Claim C3 witness: line 1 consisting of `.ippcode24` alone is accepted
as an instruction node with opcode `.IPPCODE24` and order 1. -/
theorem claim_C3_witness :
    (processLineFull 1 (str " .ippcode24 ")).res
      = .ok (some ⟨1, str ".IPPCODE24", []⟩) :=
  claim_C3_amended 1 (str " .ippcode24 ") (str ".ippcode24")
    (by decide) (by decide) (by decide)

/-- Claim C4, counterexample: the token `int@0x1F`, which the claim says is
accepted as kind Int, is rejected by classification with the other-syntax
error, and an otherwise well-formed program containing it is rejected. -/
theorem claim_C4_counterexample :
    classifyArg ArgType.SYMBOL 1 (str "int@0x1F")
      = .err .OTHER_LEXICAL_OR_SYNTACTICAL_ERR ∧
    mainRun (str ".IPPCODE24\nPUSHS int@0x1F\n")
      = .err .OTHER_LEXICAL_OR_SYNTACTICAL_ERR := by decide

/-- Claim C4, amended: when the expected kind is Symbol, classification
resolves `int@` followed by an optionally-signed ASCII digit sequence to
kind Int with literal equal to the part after the `@` (so `int@0755` is
accepted as a digit string); `0x`/`0X`-prefixed hexadecimal payloads are
not accepted. -/
theorem claim_C4_amended (i : Nat) (p : Str) (hp : matchIntPayload p = true) :
    classifyArg ArgType.SYMBOL i ('i' :: 'n' :: 't' :: '@' :: p)
      = .ok ⟨i, str "int", p⟩ := by
  have hvar : var_regex ('i' :: 'n' :: 't' :: '@' :: p) = false := rfl
  have hint : int_regex ('i' :: 'n' :: 't' :: '@' :: p) = matchIntPayload p := rfl
  have hlit : literalOf ('i' :: 'n' :: 't' :: '@' :: p) = p := rfl
  simp [classifyArg, hvar, hint, hp, hlit]

/-- Claim C4 witness: `int@0755` is classified as Int with literal `0755`. -/
theorem claim_C4_witness :
    matchIntPayload (str "0755") = true ∧
    classifyArg ArgType.SYMBOL 1 ('i' :: 'n' :: 't' :: '@' :: str "0755")
      = .ok ⟨1, str "int", str "0755"⟩ :=
  ⟨by decide, claim_C4_amended 1 (str "0755") (by decide)⟩

/-- Claim C5, counterexample: the bare token `string@` (empty payload),
which the claim says is accepted with the empty literal, is rejected by
classification with the other-syntax error, and an otherwise well-formed
program containing it is rejected. -/
theorem claim_C5_counterexample :
    classifyArg ArgType.SYMBOL 1 (str "string@")
      = .err .OTHER_LEXICAL_OR_SYNTACTICAL_ERR ∧
    mainRun (str ".IPPCODE24\nPUSHS string@\n")
      = .err .OTHER_LEXICAL_OR_SYNTACTICAL_ERR := by decide

/-- Claim C5, amended: when the expected kind is Symbol, classification
accepts `string@` followed by ONE or more items, each either a character
that is not backslash, whitespace or `#`, or a backslash with exactly
three decimal digits, resolving to kind String with literal equal to the
part after the `@`; the empty payload is rejected. -/
theorem claim_C5_amended (i : Nat) (body : Str) (hne : body ≠ [])
    (hitems : stringItems body = true) :
    classifyArg ArgType.SYMBOL i
        ('s' :: 't' :: 'r' :: 'i' :: 'n' :: 'g' :: '@' :: body)
      = .ok ⟨i, str "string", body⟩ := by
  have hvar : var_regex ('s' :: 't' :: 'r' :: 'i' :: 'n' :: 'g' :: '@' :: body) = false := rfl
  have hint : int_regex ('s' :: 't' :: 'r' :: 'i' :: 'n' :: 'g' :: '@' :: body) = false := rfl
  have hbool : bool_regex ('s' :: 't' :: 'r' :: 'i' :: 'n' :: 'g' :: '@' :: body) = false := rfl
  have hnil : nil_regex ('s' :: 't' :: 'r' :: 'i' :: 'n' :: 'g' :: '@' :: body) = false := rfl
  have hstr : string_regex ('s' :: 't' :: 'r' :: 'i' :: 'n' :: 'g' :: '@' :: body)
      = (!body.isEmpty && stringItems body) := rfl
  have hlit : literalOf ('s' :: 't' :: 'r' :: 'i' :: 'n' :: 'g' :: '@' :: body) = body := rfl
  have hne2 : body.isEmpty = false := by
    cases body with
    | nil => exact absurd rfl hne
    | cons c cs => rfl
  simp [classifyArg, hvar, hint, hbool, hnil, hstr, hlit, hne2, hitems]

/-- Claim C5 witness: `string@a\123b` is classified as String with literal
`a\123b` (one numeric escape inside). -/
theorem claim_C5_witness :
    str "a\\123b" ≠ [] ∧ stringItems (str "a\\123b") = true ∧
    classifyArg ArgType.SYMBOL 1
        ('s' :: 't' :: 'r' :: 'i' :: 'n' :: 'g' :: '@' :: str "a\\123b")
      = .ok ⟨1, str "string", str "a\\123b"⟩ :=
  ⟨by decide, by decide, claim_C5_amended 1 (str "a\\123b") (by decide) (by decide)⟩

/-- Claim C6: for every input whose first statement line is the header
marker (any letter case, surrounding whitespace ignored) followed by N
statement lines each holding a recognized instruction with correct arity
and well-formed arguments, the analyzer succeeds and the order numbers of
the produced instruction nodes are exactly 1..N in tree order. -/
theorem claim_C6_order_numbers (s first : Str) (rest : List Str)
    (hprep : preparedLines s = first :: rest)
    (hheader : strip (upper first) = str ".IPPCODE24")
    (hwf : ∀ l ∈ rest, lineWellFormed l = true) :
    resultOrders (mainRun s) = some (List.range' 1 rest.length) := by
  rcases s with _ | ⟨c, s2⟩
  · rw [show preparedLines [] = [] from rfl] at hprep
    exact List.noConfusion hprep
  · have hmain : mainRun (c :: s2) = analyzerResult (c :: s2) := rfl
    rw [hmain]
    have hsplit : splitlines (prepare_source (c :: s2)) = first :: rest := by
      rw [splitlines_prepare_source, hprep]
    have hres : (processLineFull 0 first).res = .ok none := by
      rw [processLineFull_res]
      simp [processLineCore, hheader]
    rw [show analyzerResult (c :: s2)
          = (runAux (splitlines (prepare_source (c :: s2))) 0).1 from rfl, hsplit]
    obtain ⟨instrs, hok, hord⟩ :=
      runAux_wf rest 1 Nat.one_ne_zero hwf
    simp only [runAux, hres]
    simp only [hok, resultOrders, hord]

/-- Claim C6 witness: the round-trip program with DEFVAR and MOVE yields
order numbers exactly 1, 2. -/
theorem claim_C6_witness :
    resultOrders (mainRun (str ".IPPCODE24\nDEFVAR GF@x\nMOVE GF@x int@5\n"))
      = some (List.range' 1 2) :=
  claim_C6_order_numbers (str ".IPPCODE24\nDEFVAR GF@x\nMOVE GF@x int@5\n")
    (str ".IPPCODE24") [str "DEFVAR GF@x", str "MOVE GF@x int@5"]
    (by decide) (by decide) (by decide)

/-- Claim C7: when the expected kind is Symbol, a token matching the
variable pattern is resolved as a variable reference with literal equal to
the whole token; the variable alternative is tried first and wins. -/
theorem claim_C7_variable_priority (i : Nat) (tok : Str)
    (h : var_regex tok = true) :
    classifyArg ArgType.SYMBOL i tok = .ok ⟨i, str "var", tok⟩ := by
  simp [classifyArg, h]

/-- Claim C7 witness: `GF@x` at a Symbol position resolves as a variable
reference with the whole token as literal. -/
theorem claim_C7_witness :
    classifyArg ArgType.SYMBOL 1 (str "GF@x") = .ok ⟨1, str "var", str "GF@x"⟩ :=
  claim_C7_variable_priority 1 (str "GF@x") (by decide)

/-- Claim C8: a statement line whose first token is a recognized opcode but
whose argument count differs from the signature's arity is reported as the
other-syntax error, and argument classification is never invoked on any
token of that line (the classified-token trace is empty). -/
theorem claim_C8_arity_before_classification (n : Nat) (l t0 : Str)
    (rest : List Str) (sig : List ArgType)
    (hn : n ≠ 0) (hsp : splitWs l = t0 :: rest)
    (hlk : lookupInstr (upper t0) = some sig)
    (hlen : rest.length ≠ sig.length) :
    (processLineFull n l).res = .err .OTHER_LEXICAL_OR_SYNTACTICAL_ERR ∧
    (processLineFull n l).classified = [] := by
  rw [processLineFull_res, processLineFull_classified, hsp]
  constructor <;> simp [processLineCore, hn, hlk, hlen]

/-- Claim C8 witness: `ADD GF@x int@1` (arity 3 required, 2 given) yields
the other-syntax error with an empty classification trace. -/
theorem claim_C8_witness :
    (processLineFull 1 (str "ADD GF@x int@1")).res
      = .err .OTHER_LEXICAL_OR_SYNTACTICAL_ERR ∧
    (processLineFull 1 (str "ADD GF@x int@1")).classified = [] :=
  claim_C8_arity_before_classification 1 (str "ADD GF@x int@1") (str "ADD")
    [str "GF@x", str "int@1"] [ArgType.VARIABLE, ArgType.SYMBOL, ArgType.SYMBOL]
    (by decide) (by decide) (by decide) (by decide)

/-- Claim C9: when a line fails, the analysis terminates at that first
error regardless of any lines that follow (the result and the write trace
are those of the failing line), and on every error no tree, not even a
partial one, reaches the success output path of `main`. -/
theorem claim_C9_first_error_no_tree :
    (∀ (l : Str) (rest : List Str) (n : Nat) (e : ErrorCode),
        (processLineFull n l).res = .err e →
        (runAux (l :: rest) n).1 = .err e ∧
        (runAux (l :: rest) n).2 = (processLineFull n l).out ++ [OutEvent.errorMsg e]) ∧
    (∀ (s : Str) (e : ErrorCode), mainRun s = .err e → mainOutput s = none) := by
  constructor
  · intro l rest n e h
    constructor <;> simp [runAux, h]
  · intro s e h
    simp [mainOutput, h]

/-- Claim C9 witness: an unknown opcode on line 1 aborts the run with that
error no matter what follows, and a failing input produces no output tree. -/
theorem claim_C9_witness :
    (runAux [str "FOO", str "MOVE GF@x int@5"] 1).1 = .err .UNKNOWN_OPCODE ∧
    mainOutput (str "MOVE GF@x int@5") = none :=
  ⟨(claim_C9_first_error_no_tree.1 (str "FOO") [str "MOVE GF@x int@5"] 1
      .UNKNOWN_OPCODE (by decide)).1,
   claim_C9_first_error_no_tree.2 (str "MOVE GF@x int@5")
      .MISSING_OR_WRONG_IPPCODE_HEADER (by decide)⟩

/-- Helper for claim C10: in a completed (successful) run, the token dump
of every line, addressed by its position, appears in the write trace. -/
theorem runAux_dump_mem : ∀ (pre : List Str) (l : Str) (post : List Str)
    (n : Nat) (instrs : List ParsedInstruction),
    (runAux (pre ++ l :: post) n).1 = .ok instrs →
    OutEvent.tokenDump (n + pre.length) (splitWs l) ∈ (runAux (pre ++ l :: post) n).2 := by
  intro pre
  induction pre with
  | nil =>
    intro l post n instrs hok
    simp only [List.nil_append] at hok ⊢
    rcases hres : (processLineFull n l).res with o | e
    · rcases o with _ | ins
      · simp only [runAux, hres]
        rw [processLineFull_out]
        simp
      · simp only [runAux, hres]
        rw [processLineFull_out]
        simp
    · simp only [runAux, hres] at hok
      exact Res.noConfusion hok
  | cons p pre ih =>
    intro l post n instrs hok
    simp only [List.cons_append] at hok ⊢
    rcases hres : (processLineFull n p).res with o | e
    · rcases o with _ | ins
      · simp only [runAux, hres] at hok ⊢
        have hmem := ih l post (n + 1) instrs hok
        refine List.mem_append_right _ ?_
        convert hmem using 2
        simp
        omega
      · simp only [runAux, hres] at hok ⊢
        rcases htail : (runAux (pre ++ l :: post) (n + 1)).1 with instrs2 | e2
        · have hmem := ih l post (n + 1) instrs2 htail
          refine List.mem_append_right _ ?_
          convert hmem using 2
          simp
          omega
        · rw [htail] at hok
          exact Res.noConfusion hok
    · simp only [runAux, hres] at hok
      exact Res.noConfusion hok

/-- Claim C10: every loop iteration writes the token-dump line to standard
output as its first write; on an arity mismatch the expected signature is
also written to standard output; and in a completed run the token dump of
every line of the normalized source, the header line included, appears in
the write trace. -/
theorem claim_C10_debug_dumps :
    (∀ (n : Nat) (l : Str),
        ((processLineFull n l).out).head? = some (OutEvent.tokenDump n (splitWs l)) ∧
        streamOf (OutEvent.tokenDump n (splitWs l)) = StdStream.stdout) ∧
    (∀ (n : Nat) (l t0 : Str) (rest : List Str) (sig : List ArgType),
        n ≠ 0 → splitWs l = t0 :: rest → lookupInstr (upper t0) = some sig →
        rest.length ≠ sig.length →
        OutEvent.signatureDump sig ∈ (processLineFull n l).out ∧
        streamOf (OutEvent.signatureDump sig) = StdStream.stdout) ∧
    (∀ (pre : List Str) (l : Str) (post : List Str) (n : Nat)
        (instrs : List ParsedInstruction),
        (runAux (pre ++ l :: post) n).1 = .ok instrs →
        OutEvent.tokenDump (n + pre.length) (splitWs l) ∈ (runAux (pre ++ l :: post) n).2) := by
  refine ⟨fun n l => ⟨rfl, rfl⟩, fun n l t0 rest sig hn hsp hlk hlen => ⟨?_, rfl⟩,
    runAux_dump_mem⟩
  rw [processLineFull_out, hsp]
  simp [processLineCore, hn, hlk, hlen]

/-- Claim C10 witness: the arity-mismatch line `ADD GF@x int@1` writes its
signature dump, and in the successful run of the header plus `DEFVAR GF@x`
the token dump of line 1 appears in the trace. -/
theorem claim_C10_witness :
    (OutEvent.signatureDump [ArgType.VARIABLE, ArgType.SYMBOL, ArgType.SYMBOL]
        ∈ (processLineFull 1 (str "ADD GF@x int@1")).out) ∧
    (OutEvent.tokenDump (0 + List.length [str ".IPPCODE24"]) (splitWs (str "DEFVAR GF@x"))
        ∈ (runAux ([str ".IPPCODE24"] ++ str "DEFVAR GF@x" :: []) 0).2) :=
  ⟨(claim_C10_debug_dumps.2.1 1 (str "ADD GF@x int@1") (str "ADD")
      [str "GF@x", str "int@1"] [ArgType.VARIABLE, ArgType.SYMBOL, ArgType.SYMBOL]
      (by decide) (by decide) (by decide) (by decide)).1,
   claim_C10_debug_dumps.2.2 [str ".IPPCODE24"] (str "DEFVAR GF@x") [] 0
      [⟨1, str "DEFVAR", [⟨1, str "var", str "GF@x"⟩]⟩] (by decide)⟩
